import Mathlib

set_option linter.unusedVariables false

/-!
Shallow embedding of the intent-resolution and multi-stage pipeline execution
engine of the Zyntax NLP terminal (source files
nlp_engine/command_pipeline.py and nlp_engine/enhanced_parser.py), together
with theorems settling the specification's claims about it.

External collaborators (the spaCy tokenizer / part-of-speech tagger, the
rapidfuzz string-similarity scorers, and the OS process boundary) are
modelled as explicit function parameters, exactly as the specification
declares them out of scope.  Python machine behaviour that the source relies
on (truthiness of strings and lists, dict `.get` defaults, dict insertion
order) is modelled explicitly.
-/

/-- One stage of a command pipeline: class PipelineStage of
command_pipeline.py (`action`, `args`, `original_text`, default None). -/
structure PipelineStage where
  action : String
  args : List String
  original_text : Option String
deriving DecidableEq, Repr

/-- The `cmd` dict handed to the delegated executor:
`{'action': ..., 'args': ...}`. -/
structure StageCmd where
  action : String
  args : List String
deriving DecidableEq, Repr

/-- Outcome of the OS-level `subprocess.run` boundary: either the process ran
(capturing stdout, stderr and exit code) or the call raised an exception. -/
inductive SubprocessOutcome where
  | ran (stdout stderr : String) (returncode : Int)
  | raised (msg : String)
deriving DecidableEq, Repr

/-- The dynamic value returned by the delegated executor in
`_execute_single_command`: a dict (with its `.get`-defaulted fields), the
value `None`, a plain string, or a raised exception. -/
inductive ExecutorResult where
  | dict (stdout stderr : String) (returncode : Int)
  | pynone
  | str (s : String)
  | exn (msg : String)
deriving DecidableEq, Repr

/-- The result dict produced by `_execute_native_command` and consumed by the
multi-stage loop (keys `success`, `stdout`, `stderr`, `returncode`, and
`error` only in the exception branch). -/
structure StepResult where
  success : Bool
  stdout : String
  stderr : String
  returncode : Int
  error : Option String
deriving DecidableEq, Repr

/-- The ExecutionResult dict returned by `execute_pipeline` and its helpers.
Keys that a given return site omits are `none` here (`returncode` is absent
from the empty-pipeline result; `failed_stage` and `error` are present only
where the source adds them). -/
structure PipeResult where
  success : Bool
  stdout : String
  stderr : String
  returncode : Option Int
  stages_executed : Nat
  failed_stage : Option Nat
  error : Option String
deriving DecidableEq, Repr

/-- The external boundaries of CommandPipeline: `subprocess.run` (argv and
optional stdin in, outcome out), the delegated executor `self.executor`, and
the temporary-file name supply of `tempfile.NamedTemporaryFile` (modelled as
a function of how many temp files were created before). -/
structure Env where
  subproc : List String → Option String → SubprocessOutcome
  exec : StageCmd → ExecutorResult
  tmpName : Nat → String

/-- Python truthiness conversion applied to the stdin argument of
`subprocess.run`: `input_data.encode() if input_data else None`, so an empty
string is passed as no input. -/
def pyInput : Option String → Option String
  | some s => if s = "" then none else some s
  | none => none


/-- Python `str.lower()` on character lists (executable in the kernel). -/
def pyLower (s : String) : String := ⟨s.toList.map Char.toLower⟩

/-- Python `str.startswith(pre)` (executable in the kernel). -/
def pyStartsWith (pre s : String) : Bool := pre.toList.isPrefixOf s.toList

/-- Embedding of `CommandPipeline._execute_native_command`. -/
def execNativeCommand (subproc : List String → Option String → SubprocessOutcome)
    (cmd : List String) (inputData : Option String) : StepResult :=
  match subproc cmd (pyInput inputData) with
  | .ran out err rc => ⟨rc == 0, out, err, rc, none⟩
  | .raised msg => ⟨false, "", "Error executing command: " ++ msg, 1, some msg⟩

/-- Embedding of `CommandPipeline._execute_single_command`: adapts the
dynamic executor result into the standardized result dict. -/
def execSingle (exec : StageCmd → ExecutorResult) (cmd : StageCmd) : PipeResult :=
  match exec cmd with
  | .dict out err rc => ⟨rc == 0, out, err, some rc, 1, none, none⟩
  | .pynone => ⟨true, "Command executed successfully", "", some 0, 1, none, none⟩
  | .str s =>
      if pyStartsWith "PYTHON_HANDLED" s then
        ⟨true, "Command executed successfully", "", some 0, 1, none, none⟩
      else
        ⟨true, if s = "" then "" else s, "", some 0, 1, none, none⟩
  | .exn msg => ⟨false, "", "Error executing command: " ++ msg, some 1, 0, none, some msg⟩

/-- Embedding of `CommandPipeline._map_to_native_command`.  The `inputData`
and `isLastStage` parameters are part of the source signature but are never
read by its body. -/
def mapToNativeCommand (stage : PipelineStage) (inputData : Option String)
    (isLastStage : Bool) : Option (List String) :=
  let action := stage.action
  let args := stage.args
  if action = "list_files" then some (if args ≠ [] then ["ls", "-la"] else ["ls"])
  else if action = "display_file" ∧ args ≠ [] then some ("cat" :: args)
  else if (action = "grep" ∨ action = "find_text") ∧ args ≠ [] then some ("grep" :: args)
  else if action = "count_lines" then some ["wc", "-l"]
  else if action = "sort_lines" then some ("sort" :: args)
  else none

/-- The temp-file hand-off of the non-native branch of
`_execute_multi_stage_pipeline`: when a previous stage produced output
(`current_input is not None`), a temp file holding it is created, and for
`display_file`/`cat` stages the stage's args are replaced by that file name.
Returns the cmd dict passed to `_execute_single_command` together with the
updated count of temp files created. -/
def nonNativeCmd (tmpName : Nat → String) (stage : PipelineStage)
    (cur : Option String) (tc : Nat) : StageCmd × Nat :=
  match cur with
  | some _ =>
      let name := tmpName tc
      let args := if stage.action ∈ (["display_file", "cat"] : List String)
                  then [name] else stage.args
      (⟨stage.action, args⟩, tc + 1)
  | none => (⟨stage.action, stage.args⟩, tc)

/-- One iteration of the loop in `_execute_multi_stage_pipeline`: map the
stage to a native command and run it, or fall back to the single-command
path; returns the stage's result dict and the updated temp-file count. -/
def stageStep (env : Env) (stage : PipelineStage) (cur : Option String)
    (tc : Nat) (isLastStage : Bool) : StepResult × Nat :=
  match mapToNativeCommand stage cur isLastStage with
  | some nativeCmd => (execNativeCommand env.subproc nativeCmd cur, tc)
  | none =>
      let ct := nonNativeCmd env.tmpName stage cur tc
      let r := execSingle env.exec ct.1
      (⟨r.success, r.stdout, r.stderr, r.returncode.getD 1, r.error⟩, ct.2)

/-- `current_input or ''` at the success exit of the multi-stage loop. -/
def pyOr : Option String → String
  | some s => s
  | none => ""

/-- Instrumented run record: the ExecutionResult plus (ghost) traces of the
stages whose execution was started (`attempted`), the stages handed to
`_map_to_native_command` (`mapped`), and the loop state (`current_input`,
temp-file count) at exit, used to compose runs. -/
structure RunOut where
  result : PipeResult
  attempted : List PipelineStage
  mapped : List PipelineStage
  finalInput : Option String
  finalTc : Nat
deriving DecidableEq, Repr

/-- Embedding of the loop of `CommandPipeline._execute_multi_stage_pipeline`:
`total` is `len(pipeline)` of the original call, `cur` is `current_input`,
`n` is both the loop index `i` and `stages_executed` (they coincide at every
iteration head), `tc` counts temp files created so far. -/
def runMulti (env : Env) (total : Nat) :
    List PipelineStage → Option String → Nat → Nat → RunOut
  | [], cur, n, tc =>
      ⟨⟨true, pyOr cur, "", some 0, n, none, none⟩, [], [], cur, tc⟩
  | stage :: rest, cur, n, tc =>
      let st := stageStep env stage cur tc (n == total - 1)
      let res := st.1
      let cur' := res.stdout
      if res.success then
        let o := runMulti env total rest (some cur') (n + 1) st.2
        ⟨o.result, stage :: o.attempted, stage :: o.mapped, o.finalInput, o.finalTc⟩
      else
        ⟨⟨false, cur', res.stderr, some res.returncode, n + 1, some n, none⟩,
         [stage], [stage], some cur', st.2⟩

/-- Embedding of `CommandPipeline.execute_pipeline`: empty pipelines are an
error, single stages go directly through `_execute_single_command`, multiple
stages run the multi-stage loop. -/
def executePipeline (env : Env) (pipeline : List PipelineStage) : RunOut :=
  match pipeline with
  | [] => ⟨⟨false, "", "No commands to execute", none, 0, none, some "Empty pipeline"⟩,
           [], [], none, 0⟩
  | [stage] => ⟨execSingle env.exec ⟨stage.action, stage.args⟩, [stage], [], none, 0⟩
  | _ => runMulti env pipeline.length pipeline none 0 0

/-! ### Regular-expression machinery

The source uses a handful of fixed regular expressions (always with
re.IGNORECASE): word-boundary-delimited literal alternatives for the
pipeline indicators, and five detector patterns built from literals,
whitespace runs and an optional literal.  They are embedded as executable
matchers over character lists. -/

/-- The regex word character class (ASCII view of Python's re word chars). -/
def isWordChar (c : Char) : Bool := c.isAlphanum || c = '_'

/-- A word boundary holds before the current position: start of text or a
non-word previous character. -/
def boundaryOk : Option Char → Bool
  | none => true
  | some c => !isWordChar c

/-- A word boundary holds after a match: end of text or a non-word next
character. -/
def boundaryEndOk : List Char → Bool
  | [] => true
  | c :: _ => !isWordChar c

/-- Case-insensitive literal match: pattern characters (given lowercase)
against the text; returns the consumed text characters (original case) and
the remainder. -/
def litCI : List Char → List Char → Option (List Char × List Char)
  | [], cs => some ([], cs)
  | _ :: _, [] => none
  | p :: ps, c :: cs =>
      if p = c.toLower then (litCI ps cs).map (fun mr => (c :: mr.1, mr.2)) else none

/-- Match any of a list of word-boundary-terminated literal alternatives at
the current position, in alternation order (first match wins). -/
def matchAlts : List (List Char) → List Char → Option (List Char × List Char)
  | [], _ => none
  | a :: rest, cs =>
      match a with
      | [] => matchAlts rest cs
      | _ :: _ =>
          match litCI a cs with
          | some mr => if boundaryEndOk mr.2 then some mr else matchAlts rest cs
          | none => matchAlts rest cs

/-- One full `pattern.sub` pass: scan left to right, replacing each
non-overlapping leftmost match (with a start word boundary) of any
alternative by the replacement characters.  The fuel argument only makes the
recursion structural; every step consumes at least one character, so fuel
`length + 1` always runs the scan to completion. -/
def subAlts (alts : List (List Char)) (repl : List Char) :
    Nat → Option Char → List Char → List Char
  | 0, _, cs => cs
  | _ + 1, _, [] => []
  | fuel + 1, prev, c :: cs =>
      if boundaryOk prev then
        match matchAlts alts (c :: cs) with
        | some mr => repl ++ subAlts alts repl fuel (some (mr.1.getLastD c)) mr.2
        | none => c :: subAlts alts repl fuel (some c) cs
      else c :: subAlts alts repl fuel (some c) cs

/-- Case-sensitive exact prefix match, returning the remainder. -/
def litEq : List Char → List Char → Option (List Char)
  | [], cs => some cs
  | _ :: _, [] => none
  | p :: ps, c :: cs => if p = c then litEq ps cs else none

/-- Python `str.split(sep)` for a non-empty separator, on character lists:
non-overlapping leftmost occurrences, empty segments kept.  Fuelled as in
`subAlts`; fuel `length + 1` always suffices. -/
def splitTok (sep : List Char) : Nat → List Char → List (List Char)
  | 0, cs => [cs]
  | _ + 1, [] => [[]]
  | fuel + 1, c :: cs =>
      match litEq sep (c :: cs) with
      | some rest => [] :: splitTok sep fuel rest
      | none =>
          match splitTok sep fuel cs with
          | seg :: segs => (c :: seg) :: segs
          | [] => [[c]]

/-- All remainders reachable by consuming zero or more whitespace characters
(the regex `\s*`, every backtracking option). -/
def wsStar : List Char → List (List Char)
  | [] => [[]]
  | c :: cs => if c.isWhitespace then (c :: cs) :: wsStar cs else [c :: cs]

/-- All remainders reachable by consuming one or more whitespace characters
(the regex `\s+`, every backtracking option). -/
def wsPlus : List Char → List (List Char)
  | [] => []
  | c :: cs => if c.isWhitespace then wsStar cs else []

/-- The literal `w` matches at the head of `cs` (case-insensitively), with no
boundary requirement after it. -/
def litHit (w : String) (cs : List Char) : Bool := (litCI w.toList cs).isSome

/-- Search for a pattern at every position of the text, tracking the previous
character for word-boundary checks (the semantics of `re.search`). -/
def searchPos (p : Option Char → List Char → Bool) : Option Char → List Char → Bool
  | _, [] => false
  | prev, c :: cs => p prev (c :: cs) || searchPos p (some c) cs

/-- The trailing verb alternation of the first two detector patterns:
`(?:show|display|list|find|count|sort)` with no final boundary. -/
def verbAt (cs : List Char) : Bool :=
  (["show", "display", "list", "find", "count", "sort"] : List String).any
    fun v => litHit v cs

/-- Detector pattern (embedded from `PipelineDetector.pipeline_patterns`):
the regex `\band\s+(?:then)?\s*(?:(?:show|display|list|find|count|sort))`,
matched at one position. -/
def pat1At (prev : Option Char) (cs : List Char) : Bool :=
  boundaryOk prev &&
  match litCI "and".toList cs with
  | some mr =>
      (wsPlus mr.2).any fun r2 =>
        let r3s := match litCI "then".toList r2 with
                   | some mr' => [mr'.2, r2]
                   | none => [r2]
        r3s.any fun r3 => (wsStar r3).any verbAt
  | none => false

/-- Detector pattern
`(?:after|then|next)\s+(?:(?:show|display|list|find|count|sort))` (note: the
source writes no word boundaries here). -/
def pat2At (cs : List Char) : Bool :=
  (["after", "then", "next"] : List String).any fun w =>
    match litCI w.toList cs with
    | some mr => (wsPlus mr.2).any verbAt
    | none => false

/-- Detector pattern `(?:pipe|send|pass)\s+(?:to|into)`. -/
def pat3At (cs : List Char) : Bool :=
  (["pipe", "send", "pass"] : List String).any fun w =>
    match litCI w.toList cs with
    | some mr => (wsPlus mr.2).any fun r2 =>
        (["to", "into"] : List String).any fun t => litHit t r2
    | none => false

/-- Detector pattern `followed\s+by`. -/
def pat4At (cs : List Char) : Bool :=
  match litCI "followed".toList cs with
  | some mr => (wsPlus mr.2).any fun r2 => litHit "by" r2
  | none => false

/-- Detector pattern `with\s+the\s+result`. -/
def pat5At (cs : List Char) : Bool :=
  match litCI "with".toList cs with
  | some mr => (wsPlus mr.2).any fun r2 =>
      match litCI "the".toList r2 with
      | some mr' => (wsPlus mr'.2).any fun r3 => litHit "result" r3
      | none => false
  | none => false

/-- The loop `for pattern in self.compiled_patterns: if pattern.search(text)`
of `PipelineDetector.is_pipeline`. -/
def patternsSearch (text : String) : Bool :=
  searchPos
    (fun prev cs => pat1At prev cs || pat2At cs || pat3At cs || pat4At cs || pat5At cs)
    none text.toList

/-- `re.search(r'\b' + word + r'\b', text, re.IGNORECASE)`: whole-word,
case-insensitive occurrence of a literal (possibly multi-word) phrase. -/
def wordMatchAt (w : List Char) (prev : Option Char) (cs : List Char) : Bool :=
  boundaryOk prev &&
  match litCI w cs with
  | some mr => boundaryEndOk mr.2
  | none => false

/-- Whole-word case-insensitive search of `w` anywhere in `text`. -/
def wordSearch (w : String) (text : String) : Bool :=
  searchPos (wordMatchAt w.toList) none text.toList

/-- `PipelineDetector.complex_action_words`. -/
def complexActionWords : List String :=
  ["find", "search", "filter", "count", "sort", "analyze",
   "organize", "categorize", "group", "aggregate"]

/-- The `action_count` of `PipelineDetector.is_pipeline`: how many complex
action words occur as whole words in the text. -/
def complexActionCount (text : String) : Nat :=
  complexActionWords.countP fun w => wordSearch w text

/-- Python `str.strip()`: drop leading and trailing whitespace. -/
def pyStrip (s : String) : String :=
  ⟨((s.toList.dropWhile Char.isWhitespace).reverse.dropWhile Char.isWhitespace).reverse⟩

/-- `[p.strip() for p in text.split(',')]` of `PipelineDetector.is_pipeline`
(empty parts are kept, exactly as in the source). -/
def commaParts (text : String) : List String :=
  (splitTok [','] (text.toList.length + 1) text.toList).map fun cs => pyStrip ⟨cs⟩

/-- The per-part action patterns of the comma heuristic:
`\b(?:list|show|find|get|display|count|sort)\b`, `\bfiles\b`, `\btext\b`. -/
def partActionWords : List String :=
  ["list", "show", "find", "get", "display", "count", "sort", "files", "text"]

/-- Whether one comma part matches any of the action patterns. -/
def partHasAction (p : String) : Bool :=
  partActionWords.any fun w => wordSearch w p

/-- Embedding of `PipelineDetector.is_pipeline`. -/
def isPipeline (text : String) : Bool :=
  if patternsSearch text then true
  else if 2 ≤ complexActionCount text then true
  else
    let parts := commaParts text
    if 3 ≤ parts.length then decide (2 ≤ parts.countP partHasAction)
    else false

/-- `CommandPipeline.pipeline_indicators`: each indicator regex is a set of
word-boundary-delimited literal alternatives, in source order
(`\bfollow(?:ed)? by\b` tries the `ed` form first, as the regex is greedy). -/
def pipelineIndicators : List (List String) :=
  [["and"], ["then"], ["after that"], ["next"], ["pipe to"], ["pipe into"],
   ["send to"], ["pass to"], ["followed by", "follow by"], ["with the result"]]

/-- Embedding of `CommandPipeline.detect_pipeline`: does the union of the
indicator patterns match anywhere in the text? -/
def detectPipeline (text : String) : Bool :=
  pipelineIndicators.any fun alts => alts.any fun a => wordSearch a text

/-- The `###PIPELINE_SPLIT###` separator token of
`CommandPipeline.split_pipeline_stages`. -/
def specialToken : String := "###PIPELINE_SPLIT###"

/-- One `pattern.sub(special_token, text)` pass for one indicator. -/
def subIndicator (alts : List String) (text : String) : String :=
  ⟨subAlts (alts.map fun a => a.toList) specialToken.toList
    (text.toList.length + 1) none text.toList⟩

/-- Embedding of `CommandPipeline.split_pipeline_stages`: substitute every
indicator occurrence by the separator token (one pass per indicator, in
order), split on the token, strip whitespace, drop empty stages. -/
def splitPipelineStages (text : String) : List String :=
  let t := pipelineIndicators.foldl (fun acc alts => subIndicator alts acc) text
  (((splitTok specialToken.toList (t.toList.length + 1) t.toList).map
      fun cs => pyStrip ⟨cs⟩).filter fun s => s ≠ "")

/-- The terminal action identifiers that `CommandPipeline.parse_pipeline`
filters out of multi-stage pipelines. -/
def badActions : List String := ["unrecognized", "suggest", "error"]

/-- Embedding of `CommandPipeline.parse_pipeline`.  The injected parser
(`self.parser.parse_input`) is abstract: it returns `None` or a dict, whose
`action` key and `.get('args', [])` are modelled as the returned pair. -/
def parsePipeline (parser : String → Option (String × List String)) (text : String) :
    List PipelineStage :=
  if detectPipeline text = false then
    match parser text with
    | some (a, args) => [⟨a, args, some text⟩]
    | none => []
  else
    (splitPipelineStages text).foldr
      (fun st acc =>
        match parser st with
        | some (a, args) => if a ∈ badActions then acc else ⟨a, args, some st⟩ :: acc
        | none => acc) []

/-! ### Embedding of nlp_engine/enhanced_parser.py

The spaCy pipeline is the out-of-scope tokenizer/tagger: a document is an
abstract list of tokens carrying the attributes the source reads (`text`,
`pos_`, `is_stop`); the tokenizer itself, the spaCy `Matcher`-based file-path
extractor, and the two rapidfuzz scorers (`fuzz.WRatio` for vocabulary
matching, `fuzz.ratio` for learned corrections, both on a 0-100 scale) are
function parameters. -/

/-- A spaCy token as read by the parser: its text, coarse POS tag and
stop-word flag (`token.lower_` is `token.text.lower()`). -/
structure Token where
  text : String
  pos : String
  isStop : Bool
deriving DecidableEq, Repr

/-- A Python dict from entity category to list of values, as an
insertion-ordered association list with unique keys. -/
abbrev EntityMap := List (String × List String)

/-- Dict lookup (first binding wins; keys are unique). -/
def lookupEnt (m : EntityMap) (k : String) : Option (List String) :=
  m.findSome? fun p => if p.1 = k then some p.2 else none

/-- Dict assignment `m[k] = v`: update in place if present, else append. -/
def setEnt (m : EntityMap) (k : String) (v : List String) : EntityMap :=
  if (lookupEnt m k).isSome then m.map fun p => if p.1 = k then (k, v) else p
  else m ++ [(k, v)]

/-- Dict merge `{**a, **b}`: keys of `a` in their order (values overridden by
`b` where present), then new keys of `b` in their order. -/
def mergeEnt (a b : EntityMap) : EntityMap :=
  (a.map fun p => match lookupEnt b p.1 with
    | some v => (p.1, v)
    | none => p)
  ++ b.filter fun p => (lookupEnt a p.1).isNone

/-- `resolved[k].append(v)` after `resolved.setdefault(k, [])`-style guard
(the source inserts an empty list when the key is absent, then appends). -/
def appendEnt (m : EntityMap) (k : String) (v : String) : EntityMap :=
  if (lookupEnt m k).isSome then m.map fun p => if p.1 = k then (k, p.2 ++ [v]) else p
  else m ++ [(k, [v])]

/-- The persisted learning record of the parser (`self.learning_data`), with
dicts as insertion-ordered association lists. -/
structure LearningData where
  successful_parses : List (String × Bool)
  misinterpreted_commands : List String
  user_corrections : List (String × String)
  command_frequencies : List (String × Nat)
deriving DecidableEq, Repr

/-- Class CommandHistory: the resolved-command list, the bounded window size,
and the entity context `last_entities`. -/
structure CommandHistory where
  commands : List (String × List String × EntityMap × String)
  history_size : Nat
  last_entities : EntityMap
deriving DecidableEq, Repr

/-- The command structure dict built by `EnhancedParser.parse_input`. -/
structure CommandStructure where
  action : String
  args : List String
  entities : EntityMap
  original_text : String
deriving DecidableEq, Repr

/-- The in-memory state `parse_input` reads and writes: the command history
and the learning data. -/
structure ParserState where
  history : CommandHistory
  learning : LearningData
deriving DecidableEq, Repr

/-- Embedding of `CommandHistory.add_command`: append the command, refresh
`last_entities` from its non-empty entity lists, trim the history window. -/
def addCommand (h : CommandHistory) (c : CommandStructure) : CommandHistory :=
  let cmds := h.commands ++ [(c.action, c.args, c.entities, c.original_text)]
  let le := c.entities.foldl (fun acc p => if p.2 ≠ [] then setEnt acc p.1 p.2 else acc)
    h.last_entities
  let cmds := if h.history_size < cmds.length then cmds.drop 1 else cmds
  ⟨cmds, h.history_size, le⟩

/-- Embedding of `EnhancedParser._update_command_frequency`. -/
def updateFrequency (ld : LearningData) (a : String) : LearningData :=
  let fs := if (ld.command_frequencies.findSome? fun p =>
      if p.1 = a then some p.2 else none).isNone
    then ld.command_frequencies ++ [(a, 0)] else ld.command_frequencies
  { ld with command_frequencies := fs.map fun p => if p.1 = a then (p.1, p.2 + 1) else p }

/-- Embedding of `EnhancedParser._check_learning_data`: scan the recorded
corrections in insertion order and return the first whose source utterance
has `rScore` similarity strictly above 90 to the input. -/
def checkLearningData (rScore : String → String → Nat) (ld : LearningData)
    (text : String) : Option String :=
  if ld.user_corrections = [] then none
  else ld.user_corrections.findSome? fun p =>
    if 90 < rScore (pyLower text) (pyLower p.1) then some p.2 else none

/-- Embedding of `EnhancedParser._extract_basic_entities`. -/
def extractBasicEntities (doc : List Token) : EntityMap :=
  [("nouns", (doc.filter fun t => t.pos = "NOUN" ∧ ¬t.isStop).map fun t => t.text),
   ("proper_nouns", (doc.filter fun t => t.pos = "PROPN").map fun t => t.text)]

/-- Embedding of `EnhancedParser._extract_specialized_entities`; the spaCy
`Matcher`-based FILE_PATH extraction is the abstract parameter `efp`. -/
def extractSpecializedEntities (doc : List Token) (efp : List Token → List String) :
    EntityMap :=
  [("file_paths", efp doc), ("git_branches", []),
   ("options", (doc.filter fun t => pyStartsWith "-" t.text).map fun t => t.text)]

/-- Embedding of `EnhancedParser._resolve_references`: when the utterance
contains a deictic marker and a context exists, every "that/this" token
immediately followed by "file"/"directory"/"folder" injects the most recent
context value of the corresponding category. -/
def resolveReferences (doc : List Token) (entities context : EntityMap) : EntityMap :=
  let hasRef := doc.any fun t =>
    pyLower t.text ∈ (["that", "this", "it", "those"] : List String)
  if hasRef ∧ context ≠ [] then
    (List.range doc.length).foldl
      (fun resolved i =>
        match doc.get? i, doc.get? (i + 1) with
        | some t, some nxt =>
            if pyLower t.text ∈ (["that", "this"] : List String) ∧
               pyLower nxt.text ∈ (["file", "directory", "folder"] : List String) then
              let etype := if pyLower nxt.text = "file" then "file_paths"
                           else "directory_paths"
              match lookupEnt context etype with
              | some (v :: _) => appendEnt resolved etype v
              | _ => resolved
            else resolved
        | _, _ => resolved)
      entities
  else entities

/-- Embedding of `EnhancedParser._format_args_for_action`. -/
def formatArgsForAction (actionId : String) (entities : EntityMap) : List String :=
  let args :=
    if actionId ∈ (["change_directory", "make_directory", "delete_directory"] :
        List String) then
      match lookupEnt entities "directory_paths" with
      | some (v :: _) => [v]
      | _ =>
          match lookupEnt entities "file_paths" with
          | some (v :: _) => [v]
          | _ => []
    else if actionId ∈ (["create_file", "delete_file", "display_file"] :
        List String) then
      match lookupEnt entities "file_paths" with
      | some (v :: _) => [v]
      | _ => []
    else if actionId ∈ (["move_rename", "copy_file"] : List String) then
      match lookupEnt entities "file_paths" with
      | some fps => if 2 ≤ fps.length then fps.take 2 else []
      | none => []
    else []
  match lookupEnt entities "options" with
  | some opts => args ++ opts
  | none => args

/-- The three entity views built by `EnhancedParser._extract_arguments`. -/
structure EntityData where
  raw : EntityMap
  resolved : EntityMap
  formatted : List String
deriving DecidableEq, Repr

/-- Embedding of `EnhancedParser._extract_arguments`. -/
def extractArguments (doc : List Token) (actionId : String) (context : EntityMap)
    (efp : List Token → List String) : EntityData :=
  let basic := extractBasicEntities doc
  let specialized := extractSpecializedEntities doc efp
  let allE := mergeEnt basic specialized
  let resolved := resolveReferences doc allE context
  ⟨allE, resolved, formatArgsForAction actionId resolved⟩

/-- Python truthiness of a variable that holds either `None` or a string. -/
def truthy : Option String → Bool
  | none => false
  | some s => s ≠ ""

/-- The base vocabulary `EnhancedParser.base_action_keywords`, in source
(dict insertion) order. -/
def baseActionKeywords : List (String × String) :=
  [("list files", "list_files"), ("show files", "list_files"), ("ls", "list_files"),
   ("show current directory", "show_path"), ("pwd", "show_path"),
   ("change directory", "change_directory"), ("cd", "change_directory")]

/-- Dict lookup `self.action_keywords.get(phrase)` on a vocabulary. -/
def lookupVocab (vocab : List (String × String)) (k : String) : Option String :=
  vocab.findSome? fun p => if p.1 = k then some p.2 else none

/-- Tokenisation of a vocabulary phrase (the source runs `self.nlp(phrase)`
on simple space-separated lowercase phrases). -/
def phraseWords (p : String) : List String :=
  (splitTok [' '] (p.toList.length + 1) p.toList).map (fun cs => (⟨cs⟩ : String))
    |>.filter fun w => w ≠ ""

/-- Do the document tokens starting here spell the phrase words, comparing
lowercased token text (the `PhraseMatcher` is built with `attr="LOWER"`)? -/
def tokensMatch : List Token → List String → Bool
  | _, [] => true
  | [], _ :: _ => false
  | t :: ts, w :: ws => pyLower t.text == w && tokensMatch ts ws

/-- The matched span's `doc[start:end].text.lower()`, idealised as the
space-joined lowercased token texts. -/
def spanTextLower (ts : List Token) (n : Nat) : String :=
  pyLower (String.intercalate " " ((ts.take n).map fun t => t.text))

/-- First phrase match in the document: leftmost start position wins, then
vocabulary (matcher insertion) order.  Only multi-word phrases take part:
`_setup_matchers` adds a phrase to the PhraseMatcher only if it contains a
space. -/
def phraseMatchFrom (phrases : List String) : List Token → Option String
  | [] => none
  | t :: ts =>
      match phrases.findSome? (fun p =>
        let ws := phraseWords p
        if tokensMatch (t :: ts) ws then some (spanTextLower (t :: ts) ws.length)
        else none) with
      | some m => some m
      | none => phraseMatchFrom phrases ts

/-- The multi-word phrases registered by `EnhancedParser._setup_matchers`
(`if " " in phrase`). -/
def multiwordKeys (vocab : List (String × String)) : List String :=
  (vocab.map fun p => p.1).filter fun p => ' ' ∈ p.toList

/-- The exact-match pass of `parse_input`: run the PhraseMatcher over the
document and look the first matched span up in the vocabulary. -/
def phraseMatch (vocab : List (String × String)) (doc : List Token) : Option String :=
  phraseMatchFrom (multiwordKeys vocab) doc

/-- Embedding of `rapidfuzz.process.extractOne(query, choices, scorer,
score_cutoff)`: best-scoring choice, earliest on ties, `none` when every
score is below the cutoff. -/
def extractOne (scorer : String → String → Nat) (query : String)
    (choices : List String) (cutoff : Nat) : Option (String × Nat) :=
  let best := choices.foldl
    (fun acc c =>
      let s := scorer query c
      match acc with
      | none => some (c, s)
      | some bs => if bs.2 < s then some (c, s) else acc)
    none
  match best with
  | some bs => if cutoff ≤ bs.2 then some bs else none
  | none => none

/-- The value `parse_input` returns when the input is non-empty: the
unrecognized marker dict, a suggestion dict, or a resolved command dict. -/
inductive ParseResult where
  | unrecognized
  | suggest (suggestionActionId : String) (suggestionPhrase : String)
  | command (cmd : CommandStructure)
deriving DecidableEq, Repr

/-- The outcome of one `parse_input` call: the returned value (`none` models
Python `None`), the updated parser state, and a ghost flag recording whether
the fuzzy-matching pass (`process.extractOne`) was run. -/
structure ParseOutcome where
  result : Option ParseResult
  state : ParserState
  fuzzyScored : Bool
deriving Repr

/-- Embedding of `EnhancedParser.parse_input`.  Parameters: `nlp` the
tokenizer, `wScore` the `fuzz.WRatio` scorer, `rScore` the `fuzz.ratio`
scorer, `efp` the FILE_PATH entity extractor, `vocab` the merged
`action_keywords`, `st` the mutable parser state, `text` the input.  The
fuzzy pass runs exactly when the exact match is falsy; a learned correction
overrides the action unconditionally; on a resolved command the history and
the command frequencies are updated.  (One unreachable corner is idealised:
when an exact match exists and a learned correction maps to the empty
string, CPython would raise NameError on the undefined suggestion variables,
while this embedding returns the unrecognized marker.) -/
def parseInput (nlp : String → List Token) (wScore rScore : String → String → Nat)
    (efp : List Token → List String) (vocab : List (String × String))
    (st : ParserState) (text : String) : ParseOutcome :=
  if pyStrip text = "" then ⟨none, st, false⟩
  else
    let doc := nlp text
    let context := st.history.last_entities
    let exactMatch : Option String :=
      match phraseMatch vocab doc with
      | some p => lookupVocab vocab p
      | none => none
    let fz : Option String × Option String × Option String :=
      match extractOne wScore (pyLower text) (vocab.map fun p => p.1) 65 with
      | none => (none, none, none)
      | some ps =>
          let aid := (lookupVocab vocab ps.1).getD ""
          if 90 ≤ ps.2 then (some aid, none, none) else (none, some aid, some ps.1)
    let fuzzyScored := !truthy exactMatch
    let actionId0 := if truthy exactMatch then exactMatch else fz.1
    let suggId := if truthy exactMatch then none else fz.2.1
    let suggPhrase := if truthy exactMatch then none else fz.2.2
    let actionId := match checkLearningData rScore st.learning text with
      | some a => some a
      | none => actionId0
    if !truthy actionId && !truthy suggId then ⟨some .unrecognized, st, fuzzyScored⟩
    else if !truthy actionId then
      ⟨some (.suggest (suggId.getD "") (suggPhrase.getD "")), st, fuzzyScored⟩
    else
      let aid := actionId.getD ""
      let ed := extractArguments doc aid context efp
      let cmd : CommandStructure := ⟨aid, ed.formatted, ed.raw, text⟩
      ⟨some (.command cmd), ⟨addCommand st.history cmd, updateFrequency st.learning aid⟩,
       fuzzyScored⟩

/-- The action of a resolved command result, if any. -/
def resultAction (o : ParseOutcome) : Option String :=
  match o.result with
  | some (.command c) => some c.action
  | _ => none

/-- Whitespace-splitting test tokenizer standing in for spaCy in concrete
evaluations (POS tag "X", not a stop word). -/
def testTok (s : String) : List Token :=
  ((splitTok [' '] (s.toList.length + 1) s.toList).map fun cs => (⟨cs⟩ : String))
    |>.filter (fun w => w ≠ "") |>.map fun w => ⟨w, "X", false⟩

/-- Equality test scorer: 100 on equal strings, 0 otherwise. -/
def eqScore (a b : String) : Nat := if a = b then 100 else 0

/-- Constant-zero test scorer. -/
def zeroScore (a b : String) : Nat := 0

/-- Empty FILE_PATH extractor for concrete evaluations. -/
def noPaths (doc : List Token) : List String := []

/-- Fresh parser state: empty history (window 10) and empty learning data. -/
def initState : ParserState := ⟨⟨[], 10, []⟩, ⟨[], [], [], []⟩⟩

/-! ### Test fixtures for concrete evaluations -/

/-- The standardized success dict fabricated for internally handled commands
(`None` or `PYTHON_HANDLED...` executor results). -/
def pyHandledResult : PipeResult :=
  ⟨true, "Command executed successfully", "", some 0, 1, none, none⟩

/-- The failing stage's step result, as a function of the prefix already run:
the step executed at the `current_input` / temp-file count left by the
prefix (`_map_to_native_command` ignores its `is_last_stage` argument, so it
is fixed to `false` here). -/
def failStep (env : Env) (total : Nat) (pre : List PipelineStage)
    (s : PipelineStage) : StepResult :=
  (stageStep env s (runMulti env total pre none 0 0).finalInput
    (runMulti env total pre none 0 0).finalTc false).1

/-- Environment whose executor always reports internal Python handling. -/
def envPy : Env := ⟨fun _ _ => .ran "" "" 0, fun _ => .pynone, fun _ => "tmpfile"⟩

/-- A stage with no native mapping. -/
def noopStage : PipelineStage := ⟨"noop", [], none⟩

/-- Environment where `wc -l` exits 1 with stderr "boom" and every other
native command succeeds with stdout "ok". -/
def envFail : Env :=
  ⟨fun cmd _ => if cmd = ["wc", "-l"] then .ran "" "boom" 1 else .ran "ok" "" 0,
   fun _ => .pynone, fun _ => "tmp"⟩

/-- Environment where every native command succeeds with stdout "out". -/
def envOk : Env := ⟨fun _ _ => .ran "out" "" 0, fun _ => .pynone, fun _ => "tmp"⟩

/-- A `list_files` stage. -/
def stListFiles : PipelineStage := ⟨"list_files", [], none⟩

/-- A `count_lines` stage. -/
def stCountLines : PipelineStage := ⟨"count_lines", [], none⟩

/-- Test parser mapping the two stage texts of the canonical example. -/
def parserW : String → Option (String × List String) := fun s =>
  if s = "list files" then some ("list_files", []) else some ("count_lines", [])

/-- Parser state holding one recorded learning correction. -/
def learnedState : ParserState :=
  ⟨⟨[], 10, []⟩, ⟨[], [], [("opne file", "open_file")], []⟩⟩

/-- Constant test scorer standing in for `fuzz.ratio`, always 91. -/
def constScore91 (a b : String) : Nat := 91

/-! ### Helper lemmas -/

lemma countP_filter_le {α : Type} (l : List α) (p q : α → Bool) :
    (l.filter q).countP p ≤ l.countP p := by
  induction l with
  | nil => simp
  | cons x xs ih =>
      by_cases hq : q x = true
      · simp only [List.filter_cons, hq, if_pos, List.countP_cons]
        omega
      · simp only [List.filter_cons, hq, List.countP_cons, if_neg, Bool.false_eq_true,
          not_false_eq_true, ite_false]
        omega

lemma two_le_countP_of_mem {α : Type} [DecidableEq α] {l : List α} {p : α → Bool}
    {a b : α} (ha : a ∈ l) (hb : b ∈ l) (hne : a ≠ b)
    (hpa : p a = true) (hpb : p b = true) : 2 ≤ l.countP p := by
  induction l with
  | nil => simp at ha
  | cons x xs ih =>
      rw [List.countP_cons]
      rcases List.mem_cons.mp ha with rfl | ha'
      · rcases List.mem_cons.mp hb with rfl | hb'
        · exact absurd rfl hne
        · have h1 : 0 < xs.countP p := List.countP_pos_iff.mpr ⟨b, hb', hpb⟩
          rw [if_pos hpa]
          omega
      · rcases List.mem_cons.mp hb with rfl | hb'
        · have h1 : 0 < xs.countP p := List.countP_pos_iff.mpr ⟨a, ha', hpa⟩
          rw [if_pos hpb]
          omega
        · have h2 := ih ha' hb'
          omega

/-! ### Claims -/

/-- C4: `CommandPipeline.execute_pipeline` applied to an empty stage list
returns success `false`, the dedicated "Empty pipeline" error message and
"No commands to execute" stderr, with `stages_executed = 0`; no stage
execution is attempted and nothing is handed to the native mapper, whatever
the process boundary and executor are (the result is a constant independent
of the environment). -/
theorem execute_pipeline_empty_is_error (env : Env) :
    executePipeline env [] =
      ⟨⟨false, "", "No commands to execute", none, 0, none, some "Empty pipeline"⟩,
       [], [], none, 0⟩ := rfl

/-- C10: `EnhancedParser.parse_input` on input that is empty or whitespace
only returns Python `None`, leaves the parser state (command history and
learning data) unchanged, and performs no fuzzy scoring. -/
theorem parse_input_blank_is_noop (nlp : String → List Token)
    (wScore rScore : String → String → Nat) (efp : List Token → List String)
    (vocab : List (String × String)) (st : ParserState) (text : String)
    (h : pyStrip text = "") :
    parseInput nlp wScore rScore efp vocab st text = ⟨none, st, false⟩ := by
  unfold parseInput
  rw [if_pos h]

/-- Witness for C10 at the whitespace-only input "  ". -/
theorem parse_input_blank_is_noop_witness :
    parseInput testTok eqScore zeroScore noPaths baseActionKeywords initState "  " =
      ⟨none, initState, false⟩ :=
  parse_input_blank_is_noop testTok eqScore zeroScore noPaths baseActionKeywords
    initState "  " (by decide)

/-- C8: `CommandPipeline.split_pipeline_stages` replaces connective markers
by the separator, splits, trims and drops empty segments in left-to-right
order; on "list files and count lines" it yields exactly the stage texts
"list files" then "count lines", and no returned segment is ever empty. -/
theorem split_pipeline_stages_example :
    splitPipelineStages "list files and count lines" = ["list files", "count lines"] ∧
    ∀ text s, s ∈ splitPipelineStages text → s ≠ "" := by
  constructor
  · decide
  · intro text s hs
    unfold splitPipelineStages at hs
    simp only [List.mem_filter] at hs
    exact of_decide_eq_true hs.2

/-- Witness for C8's general segment conjunct at the example input. -/
theorem split_pipeline_stages_example_witness :
    splitPipelineStages "list files and count lines" = ["list files", "count lines"] ∧
    "list files" ≠ "" :=
  ⟨split_pipeline_stages_example.1,
   split_pipeline_stages_example.2 "list files and count lines" "list files" (by decide)⟩

/-- C7: `PipelineDetector.is_pipeline` returns true for every utterance
containing, as whole words, at least two distinct members of the fixed
complex-action-word set. -/
theorem is_pipeline_of_two_complex_words (text w₁ w₂ : String)
    (h₁ : w₁ ∈ complexActionWords) (h₂ : w₂ ∈ complexActionWords) (hne : w₁ ≠ w₂)
    (hs₁ : wordSearch w₁ text = true) (hs₂ : wordSearch w₂ text = true) :
    isPipeline text = true := by
  have hc : 2 ≤ complexActionCount text :=
    two_le_countP_of_mem h₁ h₂ hne hs₁ hs₂
  unfold isPipeline
  by_cases hp : patternsSearch text = true
  · rw [if_pos hp]
  · rw [if_neg hp, if_pos hc]

/-- Witness for C7 at "find stuff sort stuff". -/
theorem is_pipeline_of_two_complex_words_witness :
    isPipeline "find stuff sort stuff" = true :=
  is_pipeline_of_two_complex_words "find stuff sort stuff" "find" "sort"
    (by decide) (by decide) (by decide) (by decide) (by decide)

/-- C6 counterexample: "list files,,show files" splits on commas into only
two non-empty parts, matches neither the explicit detector patterns nor two
complex action words, yet `is_pipeline` returns true — the source counts
empty comma parts towards the ≥ 3 threshold. -/
theorem comma_criterion_counterexample :
    isPipeline "list files,,show files" = true ∧
    ((commaParts "list files,,show files").filter fun s => s ≠ "").length = 2 ∧
    patternsSearch "list files,,show files" = false ∧
    complexActionCount "list files,,show files" = 0 :=
  ⟨by decide, by decide, by decide, by decide⟩

/-- C6 (amended): the comma criterion of `PipelineDetector.is_pipeline`
counts all comma-separated parts, empty or not.  (i) Any utterance with at
least 3 non-empty comma parts of which at least 2 match an action pattern is
classified a pipeline; (ii) when the total number of comma parts (including
empty ones) is below 3 the comma criterion never fires: the classification
is exactly the disjunction of the pattern search and the
complex-action-word count. -/
theorem comma_criterion_amended :
    (∀ text, 3 ≤ ((commaParts text).filter fun s => s ≠ "").length →
      2 ≤ ((commaParts text).filter fun s => s ≠ "").countP partHasAction →
      isPipeline text = true) ∧
    (∀ text, (commaParts text).length < 3 →
      isPipeline text =
        (patternsSearch text || decide (2 ≤ complexActionCount text))) := by
  constructor
  · intro text h3 h2
    have hlen : 3 ≤ (commaParts text).length :=
      le_trans h3 (List.length_filter_le _ _)
    have hcnt : 2 ≤ (commaParts text).countP partHasAction :=
      le_trans h2 (countP_filter_le _ _ _)
    unfold isPipeline
    by_cases hp : patternsSearch text = true
    · rw [if_pos hp]
    · rw [if_neg hp]
      by_cases hc : 2 ≤ complexActionCount text
      · rw [if_pos hc]
      · rw [if_neg hc]
        simp only [if_pos hlen]
        exact decide_eq_true hcnt
  · intro text hlt
    unfold isPipeline
    by_cases hp : patternsSearch text = true
    · rw [if_pos hp, hp, Bool.true_or]
    · rw [if_neg hp]
      by_cases hc : 2 ≤ complexActionCount text
      · rw [if_pos hc, decide_eq_true hc]
        simp [hp]
      · rw [if_neg hc]
        rw [if_neg (by omega)]
        simp [hp, hc]

/-- Witness for C6's amended statement: a three-part comma list is accepted,
and a comma-free utterance falls back to the pattern/word criteria (here:
rejected). -/
theorem comma_criterion_amended_witness :
    isPipeline "list files, show files, count lines" = true ∧
    isPipeline "list files" = false := by
  constructor
  · exact comma_criterion_amended.1 "list files, show files, count lines"
      (by decide) (by decide)
  · have h := comma_criterion_amended.2 "list files" (by decide)
    rw [h]
    decide

/-- C1 counterexample: the utterance "ls" is itself an exact vocabulary
phrase (mapped to `list_files`), but `_setup_matchers` registers only
multi-word phrases, so `parse_input` resolves it through the fuzzy-matching
pass — fuzzy scoring is performed despite an exact vocabulary phrase match
occurring in the utterance. -/
theorem exact_match_claim_counterexample :
    lookupVocab baseActionKeywords "ls" = some "list_files" ∧
    resultAction (parseInput testTok eqScore zeroScore noPaths baseActionKeywords
      initState "ls") = some "list_files" ∧
    (parseInput testTok eqScore zeroScore noPaths baseActionKeywords initState
      "ls").fuzzyScored = true :=
  ⟨by decide, by decide, by decide⟩

/-- C1 (amended): for every utterance in which the phrase matcher finds a
multi-word vocabulary phrase (with a non-empty ActionIdentifier), provided
no learned correction with similarity above 90 applies and the input is not
blank, `parse_input` returns that phrase's ActionIdentifier as the command's
action and the fuzzy-matching pass is not run. -/
theorem exact_multiword_match_no_fuzzy (nlp : String → List Token)
    (wScore rScore : String → String → Nat) (efp : List Token → List String)
    (vocab : List (String × String)) (st : ParserState) (text p a : String)
    (hm : phraseMatch vocab (nlp text) = some p)
    (hv : lookupVocab vocab p = some a) (ha : a ≠ "")
    (hl : checkLearningData rScore st.learning text = none)
    (ht : pyStrip text ≠ "") :
    resultAction (parseInput nlp wScore rScore efp vocab st text) = some a ∧
    (parseInput nlp wScore rScore efp vocab st text).fuzzyScored = false := by
  unfold parseInput
  rw [if_neg ht]
  simp only [hm, hv, hl]
  have hta : truthy (some a) = true := by simp [truthy, ha]
  simp only [hta, Bool.not_true, Bool.false_and, Bool.false_eq_true, if_false,
    if_true, resultAction, Option.getD_some]
  constructor <;> trivial

/-- Witness for C1's amended statement at "list files". -/
theorem exact_multiword_match_no_fuzzy_witness :
    resultAction (parseInput testTok eqScore zeroScore noPaths baseActionKeywords
      initState "list files") = some "list_files" ∧
    (parseInput testTok eqScore zeroScore noPaths baseActionKeywords initState
      "list files").fuzzyScored = false :=
  exact_multiword_match_no_fuzzy testTok eqScore zeroScore noPaths baseActionKeywords
    initState "list files" "list files" "list_files" (by decide) (by decide)
    (by decide) (by decide) (by decide)

/-- C3: when `_check_learning_data` finds a recorded correction whose source
utterance has `fuzz.ratio` similarity strictly above 90 to the (non-blank)
input, that correction is a recorded correction with similarity above 90 and
`parse_input` resolves the input to its (non-empty) ActionIdentifier,
whatever the vocabulary, exact match or fuzzy scores would have said. -/
theorem learned_correction_overrides (nlp : String → List Token)
    (wScore rScore : String → String → Nat) (efp : List Token → List String)
    (vocab : List (String × String)) (st : ParserState) (text a : String)
    (hl : checkLearningData rScore st.learning text = some a)
    (ha : a ≠ "") (ht : pyStrip text ≠ "") :
    (∃ orig, (orig, a) ∈ st.learning.user_corrections ∧
      90 < rScore (pyLower text) (pyLower orig)) ∧
    resultAction (parseInput nlp wScore rScore efp vocab st text) = some a := by
  constructor
  · unfold checkLearningData at hl
    split at hl
    · exact absurd hl (by simp)
    · obtain ⟨p, hp, hfp⟩ := List.exists_of_findSome?_eq_some hl
      by_cases hc : 90 < rScore (pyLower text) (pyLower p.1)
      · rw [if_pos hc] at hfp
        obtain rfl : p.2 = a := Option.some.inj hfp
        exact ⟨p.1, hp, hc⟩
      · rw [if_neg hc] at hfp
        exact absurd hfp (by simp)
  · unfold parseInput
    rw [if_neg ht]
    simp only [hl]
    have hta : truthy (some a) = true := by simp [truthy, ha]
    simp only [hta, Bool.not_true, Bool.false_and, Bool.false_eq_true, if_false,
      if_true, resultAction, Option.getD_some]

/-- Witness for C3: one recorded correction with similarity 91 redirects the
input to `open_file`. -/
theorem learned_correction_overrides_witness :
    ("opne file", "open_file") ∈ learnedState.learning.user_corrections ∧
    resultAction (parseInput testTok eqScore constScore91 noPaths baseActionKeywords
      learnedState "open file") = some "open_file" :=
  ⟨by decide,
   (learned_correction_overrides testTok eqScore constScore91 noPaths
     baseActionKeywords learnedState "open file" "open_file" (by decide) (by decide)
     (by decide)).2⟩

/-- C9: when the delegated executor returns `None` or a string beginning
with "PYTHON_HANDLED", `_execute_single_command` fabricates a full success
(returncode 0, one stage executed, empty stderr, stdout "Command executed
successfully"); and inside a multi-stage pipeline a non-native stage whose
executor call returns `None` continues the pipeline with exactly that
fabricated stdout as the next stage's carried input. -/
theorem python_handled_fabricates_success :
    (∀ (exec : StageCmd → ExecutorResult) (cmd : StageCmd),
      exec cmd = .pynone → execSingle exec cmd = pyHandledResult) ∧
    (∀ (exec : StageCmd → ExecutorResult) (cmd : StageCmd) (s : String),
      exec cmd = .str s → pyStartsWith "PYTHON_HANDLED" s = true →
      execSingle exec cmd = pyHandledResult) ∧
    (∀ (env : Env) (total : Nat) (s : PipelineStage) (rest : List PipelineStage)
      (cur : Option String) (n tc : Nat),
      mapToNativeCommand s cur false = none →
      env.exec (nonNativeCmd env.tmpName s cur tc).1 = .pynone →
      (runMulti env total (s :: rest) cur n tc).result =
        (runMulti env total rest (some "Command executed successfully") (n + 1)
          (nonNativeCmd env.tmpName s cur tc).2).result) := by
  refine ⟨?_, ?_, ?_⟩
  · intro exec cmd h
    unfold execSingle
    rw [h]
    rfl
  · intro exec cmd s h hs
    unfold execSingle
    rw [h]
    show (if pyStartsWith "PYTHON_HANDLED" s = true then pyHandledResult
      else ⟨true, if s = "" then "" else s, "", some 0, 1, none, none⟩) = pyHandledResult
    rw [if_pos hs]
  · intro env total s rest cur n tc hmap hexec
    have hmap' : mapToNativeCommand s cur (n == total - 1) = none := hmap
    have hex : execSingle env.exec (nonNativeCmd env.tmpName s cur tc).1 =
        pyHandledResult := by
      unfold execSingle
      rw [hexec]
      rfl
    have hstep : stageStep env s cur tc (n == total - 1) =
        (⟨true, "Command executed successfully", "", 0, none⟩,
         (nonNativeCmd env.tmpName s cur tc).2) := by
      unfold stageStep
      rw [hmap']
      simp only [hex, pyHandledResult, Option.getD_some]
    simp only [runMulti, hstep]
    simp


/-- Witness for C9: a non-native stage with a `None`-returning executor. -/
theorem python_handled_fabricates_success_witness :
    execSingle envPy.exec ⟨"noop", []⟩ = pyHandledResult ∧
    (runMulti envPy 2 [noopStage, noopStage] none 0 0).result =
      (runMulti envPy 2 [noopStage] (some "Command executed successfully") 1 0).result :=
  ⟨python_handled_fabricates_success.1 envPy.exec ⟨"noop", []⟩ rfl,
   python_handled_fabricates_success.2.2 envPy 2 noopStage [noopStage] none 0 0
     rfl rfl⟩

/-! ### Multi-stage composition lemmas (for C2 and C5) -/

lemma stageStep_isLast_irrel (env : Env) (s : PipelineStage) (cur : Option String)
    (tc : Nat) (b : Bool) : stageStep env s cur tc b = stageStep env s cur tc false := rfl

/-- Running `pre ++ rest` decomposes: when the run of `pre` succeeds, the
loop continues into `rest` from the prefix's final input and temp count,
with all of `pre` in the attempted and mapped traces. -/
lemma runMulti_append (env : Env) (t : Nat) (pre : List PipelineStage) :
    ∀ (rest : List PipelineStage) (cur : Option String) (n tc : Nat),
    (runMulti env t pre cur n tc).result.success = true →
    runMulti env t (pre ++ rest) cur n tc =
      ⟨(runMulti env t rest (runMulti env t pre cur n tc).finalInput (n + pre.length)
          (runMulti env t pre cur n tc).finalTc).result,
       pre ++ (runMulti env t rest (runMulti env t pre cur n tc).finalInput
          (n + pre.length) (runMulti env t pre cur n tc).finalTc).attempted,
       pre ++ (runMulti env t rest (runMulti env t pre cur n tc).finalInput
          (n + pre.length) (runMulti env t pre cur n tc).finalTc).mapped,
       (runMulti env t rest (runMulti env t pre cur n tc).finalInput (n + pre.length)
          (runMulti env t pre cur n tc).finalTc).finalInput,
       (runMulti env t rest (runMulti env t pre cur n tc).finalInput (n + pre.length)
          (runMulti env t pre cur n tc).finalTc).finalTc⟩ := by
  induction pre with
  | nil =>
      intro rest cur n tc _
      simp only [List.nil_append, runMulti, List.length_nil, Nat.add_zero]
  | cons p ps ih =>
      intro rest cur n tc hsucc
      simp only [runMulti] at hsucc
      cases hres : (stageStep env p cur tc (n == t - 1)).1.success with
      | false => rw [hres] at hsucc; simp at hsucc
      | true =>
          rw [hres] at hsucc
          simp only [if_true] at hsucc
          have ihh := ih rest (some (stageStep env p cur tc (n == t - 1)).1.stdout)
            (n + 1) (stageStep env p cur tc (n == t - 1)).2 hsucc
          rw [show n + 1 + ps.length = n + (ps.length + 1) from by omega] at ihh
          simp only [List.cons_append, runMulti, hres, if_true, List.append_eq, ihh,
            List.length_cons]

lemma executePipeline_multi (env : Env) (l : List PipelineStage) (h : 2 ≤ l.length) :
    executePipeline env l = runMulti env l.length l none 0 0 := by
  match l with
  | [] => simp at h
  | [a] => simp at h
  | a :: b :: rest => rfl

/-- C2: in a pipeline of at least two stages, if every stage of the prefix
`pre` succeeds and the next stage `s` fails (its step result has
success = false), the executor stops at `s`: the result carries
success = false, the failing stage's stderr and exit code,
`failed_stage = pre.length` (the failing index) and
`stages_executed = pre.length + 1` (the stages started so far, the failing
one included — this is the count the specification's own three-stage example
prescribes); the stages of `post` are never started and never reach the
native mapper, whatever they are. -/
theorem pipeline_halts_on_first_failure (env : Env) (pre post : List PipelineStage)
    (s : PipelineStage) (hlen : 2 ≤ (pre ++ s :: post).length)
    (hpre : (runMulti env (pre ++ s :: post).length pre none 0 0).result.success = true)
    (hfail : (failStep env (pre ++ s :: post).length pre s).success = false) :
    (executePipeline env (pre ++ s :: post)).result =
      ⟨false, (failStep env (pre ++ s :: post).length pre s).stdout,
       (failStep env (pre ++ s :: post).length pre s).stderr,
       some (failStep env (pre ++ s :: post).length pre s).returncode,
       pre.length + 1, some pre.length, none⟩ ∧
    (executePipeline env (pre ++ s :: post)).attempted = pre ++ [s] ∧
    (executePipeline env (pre ++ s :: post)).mapped = pre ++ [s] := by
  rw [executePipeline_multi env _ hlen]
  rw [runMulti_append env (pre ++ s :: post).length pre (s :: post) none 0 0 hpre]
  simp only [Nat.zero_add]
  have hstep : stageStep env s
      (runMulti env (pre ++ s :: post).length pre none 0 0).finalInput
      (runMulti env (pre ++ s :: post).length pre none 0 0).finalTc
      (pre.length == (pre ++ s :: post).length - 1) =
      (failStep env (pre ++ s :: post).length pre s,
       (stageStep env s
        (runMulti env (pre ++ s :: post).length pre none 0 0).finalInput
        (runMulti env (pre ++ s :: post).length pre none 0 0).finalTc false).2) := by
    rw [stageStep_isLast_irrel]
    rfl
  simp only [runMulti, hstep, hfail, Bool.false_eq_true, if_false]
  refine ⟨?_, ?_, ?_⟩ <;> simp

/-- Witness for C2, mirroring the specification's example: three stages,
the second (index 1) fails, so `stages_executed = 2`, `failed_stage = 1`,
the failing stage's stderr and exit code are reported, and the third stage
is never attempted. -/
theorem pipeline_halts_on_first_failure_witness :
    (executePipeline envFail [stListFiles, stCountLines, stListFiles]).result =
      ⟨false, "", "boom", some 1, 2, some 1, none⟩ ∧
    (executePipeline envFail [stListFiles, stCountLines, stListFiles]).attempted =
      [stListFiles, stCountLines] ∧
    (executePipeline envFail [stListFiles, stCountLines, stListFiles]).mapped =
      [stListFiles, stCountLines] := by
  have h := pipeline_halts_on_first_failure envFail [stListFiles] [stListFiles]
    stCountLines (by decide) (by decide) (by decide)
  exact ⟨h.1.trans (by decide), h.2.1.trans (by decide), h.2.2.trans (by decide)⟩

lemma runMulti_mapped_subset (env : Env) (t : Nat) :
    ∀ (l : List PipelineStage) (cur : Option String) (n tc : Nat) (st : PipelineStage),
    st ∈ (runMulti env t l cur n tc).mapped → st ∈ l := by
  intro l
  induction l with
  | nil => intro cur n tc st h; simp [runMulti] at h
  | cons p ps ih =>
      intro cur n tc st h
      cases hres : (stageStep env p cur tc (n == t - 1)).1.success with
      | true =>
          simp only [runMulti, hres, if_true] at h
          rcases List.mem_cons.mp h with rfl | h'
          · exact List.mem_cons_self _ _
          · exact List.mem_cons_of_mem _ (ih _ _ _ _ h')
      | false =>
          simp only [runMulti, hres, Bool.false_eq_true, if_false,
            List.mem_singleton] at h
          rw [h]
          exact List.mem_cons_self _ _

lemma mem_stage_foldr_good (parser : String → Option (String × List String))
    (st : PipelineStage) :
    ∀ l : List String, st ∈ l.foldr
      (fun stx acc =>
        match parser stx with
        | some (a, args) => if a ∈ badActions then acc else ⟨a, args, some stx⟩ :: acc
        | none => acc) [] →
    st.action ∉ badActions := by
  intro l
  induction l with
  | nil => intro h; simp at h
  | cons x xs ih =>
      intro h
      simp only [List.foldr_cons] at h
      cases hp : parser x with
      | none => simp only [hp] at h; exact ih h
      | some pr =>
          obtain ⟨a, args⟩ := pr
          simp only [hp] at h
          by_cases hb : a ∈ badActions
          · rw [if_pos hb] at h; exact ih h
          · rw [if_neg hb] at h
            rcases List.mem_cons.mp h with rfl | h'
            · exact hb
            · exact ih h'

lemma parsePipeline_mem_good (parser : String → Option (String × List String))
    (text : String) (h2 : 2 ≤ (parsePipeline parser text).length) :
    ∀ st ∈ parsePipeline parser text, st.action ∉ badActions := by
  intro st hst
  unfold parsePipeline at h2 hst
  by_cases hd : detectPipeline text = false
  · rw [if_pos hd] at h2 hst
    cases hp : parser text with
    | none => rw [hp] at h2; simp at h2
    | some pr =>
        obtain ⟨a, args⟩ := pr
        rw [hp] at h2
        simp at h2
  · rw [if_neg hd] at hst
    exact mem_stage_foldr_good parser st (splitPipelineStages text) hst

/-- C5: no stage with a terminal action ("unrecognized", "suggest" or
"error") ever reaches `_map_to_native_command`: for every input text, every
injected parser and every environment, each stage recorded as handed to the
native mapper while executing the parsed pipeline has an action outside that
set.  (Multi-stage pipelines only arise from `parse_pipeline`'s filtering
branch; single stages and empty pipelines never touch the native mapper.) -/
theorem no_terminal_action_reaches_native_mapping
    (parser : String → Option (String × List String)) (env : Env) (text : String)
    (st : PipelineStage)
    (h : st ∈ (executePipeline env (parsePipeline parser text)).mapped) :
    st.action ∉ badActions := by
  rcases hpl : parsePipeline parser text with _ | ⟨a, rest⟩
  · rw [hpl] at h
    simp [executePipeline] at h
  · rcases rest with _ | ⟨b, rest'⟩
    · rw [hpl] at h
      simp [executePipeline] at h
    · rw [hpl] at h
      have he : executePipeline env (a :: b :: rest') =
          runMulti env (a :: b :: rest').length (a :: b :: rest') none 0 0 := rfl
      rw [he] at h
      have hmem := runMulti_mapped_subset env _ _ _ _ _ _ h
      have h2 : 2 ≤ (parsePipeline parser text).length := by
        rw [hpl]
        simp only [List.length_cons]
        omega
      exact parsePipeline_mem_good parser text h2 st (by rw [hpl]; exact hmem)

/-- Witness for C5: the parsed example pipeline hands `list_files` to the
native mapper, and that action is outside the terminal set. -/
theorem no_terminal_action_reaches_native_mapping_witness :
    (⟨"list_files", [], some "list files"⟩ : PipelineStage) ∈
      (executePipeline envOk (parsePipeline parserW "list files and count lines")).mapped ∧
    (⟨"list_files", [], some "list files"⟩ : PipelineStage).action ∉ badActions :=
  ⟨by decide,
   no_terminal_action_reaches_native_mapping parserW envOk "list files and count lines"
     ⟨"list_files", [], some "list files"⟩ (by decide)⟩
